import Mathlib

/-!
Verification of the Traffic intersection simulator (C sources under `src/`).

The development shallowly embeds the data model and the operations of the
Banker's-algorithm resource layer (`src/bankers_algorithm.c`), the
intersection lock (`src/synchronization.c`), the hybrid acquisition path
(`src/traffic_mutex.c`), and the SJF / MLFQ scheduling policies
(`src/sjf_scheduler.c`, `src/multilevel_scheduler.c`), and proves the
testable properties of the specification against them.

C `int` values are modelled as `Int`; fixed 4-element arrays are modelled
as functions out of `Fin 4`.  Loops over lanes or quadrants are modelled by
pointwise definitions or fuelled recursion mirroring the source's bounds.
-/

namespace Traffic

/-- Lane indices 0=N, 1=S, 2=E, 3=W (`NUM_LANES = 4`). -/
abbrev Lane := Fin 4

/-- Quadrant indices 0=NE, 1=NW, 2=SW, 3=SE (`NUM_QUADRANTS = 4`). -/
abbrev Quad := Fin 4

/-- `INT_MAX` on the 32-bit `int` type used by the C sources. -/
def INT_MAX : Int := 2147483647

/-- The `BankersState` struct of `bankers_algorithm.h` (the pthread mutex is
not part of the data model). -/
structure BankersState where
  available : Quad → Int
  maximum : Lane → Quad → Int
  allocation : Lane → Quad → Int
  need : Lane → Quad → Int
  safe_state : Bool
  deadlock_preventions : Int
deriving DecidableEq

/-- `init_bankers_state` (`bankers_algorithm.c:20`): every quadrant available
once, `maximum[lane][quad] = (quad % 2 == lane % 2) ? 1 : 0`, zero
allocation, `need = maximum`. -/
def init_bankers_state : BankersState where
  available := fun _ => 1
  maximum := fun l q => if q.val % 2 = l.val % 2 then 1 else 0
  allocation := fun _ _ => 0
  need := fun l q => if q.val % 2 = l.val % 2 then 1 else 0
  safe_state := true
  deadlock_preventions := 0

/-- `calculate_u_turn_quadrants` (`bankers_algorithm.c:509`): a U-turn claims
all four quadrants. -/
def calculate_u_turn_quadrants : Lane → Quad → Int := fun _ _ => 1

/-- The `need[lane] <= work` componentwise test of the safety loop
(`bankers_algorithm.c:157`). -/
def canFinish (need : Lane → Quad → Int) (work : Quad → Int) (l : Lane) : Bool :=
  decide (∀ q, need l q ≤ work q)

/-- One scan of the inner `for (lane = 0; ...)` loop of
`is_safe_state_unlocked` (`bankers_algorithm.c:152`): the first lane, in
index order, that is unfinished and whose need fits in `work`. -/
def find_unfinished (need : Lane → Quad → Int) (work : Quad → Int)
    (finish : Lane → Bool) : Option Lane :=
  (List.finRange 4).find? fun l => !finish l && canFinish need work l

/-- The outer `do ... while (found_lane && iterations < max_iterations)` loop
of `is_safe_state_unlocked` (`bankers_algorithm.c:149`), with the remaining
iteration budget as fuel.  Each pass either finishes the first eligible lane
(adding its allocation to `work`) or leaves the state unchanged and stops. -/
def safety_loop (alloc need : Lane → Quad → Int) :
    Nat → (Quad → Int) → (Lane → Bool) → (Quad → Int) × (Lane → Bool)
  | 0, work, finish => (work, finish)
  | fuel + 1, work, finish =>
    match find_unfinished need work finish with
    | none => (work, finish)
    | some l =>
      safety_loop alloc need fuel
        (fun q => work q + alloc l q) (Function.update finish l true)

/-- `is_safe_state_unlocked` (`bankers_algorithm.c:130`): run the safety loop
with `work = available`, all lanes unfinished, and the
`max_iterations = NUM_LANES * 2 = 8` bound; safe iff all lanes finished. -/
def is_safe_state_unlocked (s : BankersState) : Bool :=
  let res := safety_loop s.allocation s.need 8 s.available (fun _ => false)
  decide (∀ l, res.2 l = true)

/-- `is_safe_state` (`bankers_algorithm.c:195`): the public wrapper takes the
resource lock and runs the unlocked check, which also records the verdict in
`state->safe_state`. -/
def is_safe_state (s : BankersState) : Bool × BankersState :=
  let b := is_safe_state_unlocked s
  (b, { s with safe_state := b })

/-- Step 3 of `request_resources` (`bankers_algorithm.c:98`): tentatively
grant `r` to lane `l`. -/
def tentative_alloc (s : BankersState) (l : Lane) (r : Quad → Int) : BankersState :=
  { s with
    available := fun q => s.available q - r q
    allocation := fun l' q => if l' = l then s.allocation l' q + r q else s.allocation l' q
    need := fun l' q => if l' = l then s.need l' q - r q else s.need l' q }

/-- The rollback loop of `request_resources` (`bankers_algorithm.c:117`):
undo a tentative grant of `r` to lane `l`. -/
def rollback_alloc (s : BankersState) (l : Lane) (r : Quad → Int) : BankersState :=
  { s with
    available := fun q => s.available q + r q
    allocation := fun l' q => if l' = l then s.allocation l' q - r q else s.allocation l' q
    need := fun l' q => if l' = l then s.need l' q + r q else s.need l' q }

/-- `request_resources` (`bankers_algorithm.c:72`): reject if the request
exceeds the lane's need or the available vector; otherwise tentatively grant,
run the safety check (which records its verdict in `safe_state`), commit on
safe, and on unsafe increment `deadlock_preventions` and roll back. -/
def request_resources (s : BankersState) (l : Lane) (r : Quad → Int) :
    Bool × BankersState :=
  if ∃ q, r q > s.need l q then (false, s)
  else if ∃ q, r q > s.available q then (false, s)
  else
    let s1 := tentative_alloc s l r
    if is_safe_state_unlocked s1 then
      (true, { s1 with safe_state := true })
    else
      let s2 := rollback_alloc { s1 with safe_state := false } l r
      (false, { s2 with deadlock_preventions := s2.deadlock_preventions + 1 })

/-- `allocate_resources` (`bankers_algorithm.c:280`): per quadrant, transfer
`a q` to lane `l` when `a q` fits both the available vector and the lane's
need; quadrants failing the test are skipped silently. -/
def allocate_resources (s : BankersState) (l : Lane) (a : Quad → Int) : BankersState :=
  { s with
    available := fun q =>
      if a q ≤ s.available q ∧ a q ≤ s.need l q then s.available q - a q else s.available q
    allocation := fun l' q =>
      if l' = l ∧ a q ≤ s.available q ∧ a q ≤ s.need l q then s.allocation l' q + a q
      else s.allocation l' q
    need := fun l' q =>
      if l' = l ∧ a q ≤ s.available q ∧ a q ≤ s.need l q then s.need l' q - a q
      else s.need l' q }

/-- `deallocate_resources` (`bankers_algorithm.c:301`): return lane `l`'s
entire allocation to the available pool, restore its need, zero its row. -/
def deallocate_resources (s : BankersState) (l : Lane) : BankersState :=
  { s with
    available := fun q => s.available q + s.allocation l q
    need := fun l' q => if l' = l then s.need l' q + s.allocation l' q else s.need l' q
    allocation := fun l' q => if l' = l then 0 else s.allocation l' q }

/-- The reference safe-sequence notion, following the spec's words
(spec §4.4 "Safety check"): from `work`, the set `F` of unfinished lanes can
be emptied by repeatedly finishing any lane of `F` whose need fits in `work`
and freeing its allocation. -/
inductive SpecSafe (alloc need : Lane → Quad → Int) :
    (Quad → Int) → Finset Lane → Prop where
  | done : ∀ work, SpecSafe alloc need work ∅
  | step : ∀ work F l, l ∈ F → (∀ q, need l q ≤ work q) →
      SpecSafe alloc need (fun q => work q + alloc l q) (F.erase l) →
      SpecSafe alloc need work F

/-- The set of lanes still unfinished in a finish vector of the safety
loop. -/
def unfinished (finish : Lane → Bool) : Finset Lane :=
  Finset.univ.filter fun l => finish l = false

/-- A concrete Banker's state used to exercise the unsafe-rollback path:
one unit of quadrant 0 is free, lane 0 needs one unit of it and lane 1
needs two. -/
def sampleTight : BankersState where
  available := fun q => if q = 0 then 1 else 0
  maximum := fun l q =>
    if l = 1 ∧ q = 0 then 2 else if l = 0 ∧ q = 0 then 1 else 0
  allocation := fun _ _ => 0
  need := fun l q =>
    if l = 1 ∧ q = 0 then 2 else if l = 0 ∧ q = 0 then 1 else 0
  safe_state := true
  deadlock_preventions := 0

/-- A request for one unit of quadrant 0. -/
def sampleReq : Quad → Int := fun q => if q = 0 then 1 else 0

/-- The `LaneState` enum of `lane_process.h`. -/
inductive LaneState where
  | WAITING
  | READY
  | RUNNING
  | BLOCKED
deriving DecidableEq

/-- The fields of the `LaneProcess` struct (`lane_process.h`) read or written
by the scheduling, deadlock and hybrid-acquisition code under verification
(queue contents, thread handles and locks are not part of the data model). -/
structure LaneProcess where
  state : LaneState
  priority : Int
  queue_length : Int
  waiting_time : Int
  last_arrival_time : Int
  requested_quadrants : Int
  allocated_quadrants : Int
deriving DecidableEq

/-- Modelled from the spec: `update_lane_state` (declared in
`lane_process.h`; `lane_process.c` is not in the sources) sets the lane's
state to the given state (spec §4.2 state machine). -/
def update_lane_state (lane : LaneProcess) (st : LaneState) : LaneProcess :=
  { lane with state := st }

/-- Modelled from the spec: `is_lane_ready` (declared in `lane_process.h`;
`lane_process.c` is not in the sources) is
`state ∈ {READY, RUNNING} ∧ queue non-empty` (spec §4.2). -/
def is_lane_ready (lane : LaneProcess) : Bool :=
  decide ((lane.state = LaneState.READY ∨ lane.state = LaneState.RUNNING) ∧
    lane.queue_length > 0)

/-- Modelled from the spec: `is_lane_blocked` (declared in `lane_process.h`;
`lane_process.c` is not in the sources) tests the BLOCKED state
(spec §4.2). -/
def is_lane_blocked (lane : LaneProcess) : Bool :=
  decide (lane.state = LaneState.BLOCKED)

/-- Modelled from the spec: `get_lane_queue_length` (declared in
`lane_process.h`; `lane_process.c` is not in the sources) returns the queue
length counter. -/
def get_lane_queue_length (lane : LaneProcess) : Int :=
  lane.queue_length

/-- The `IntersectionMutex` struct of `synchronization.h` (mutex and
condition variables are not part of the data model); `lock_holder` is the
holder's thread id. -/
structure IntersectionMutex where
  intersection_available : Bool
  current_lane : Int
  lock_holder : Int
  lock_acquisition_time : Int
  active_quadrants : Int
deriving DecidableEq

/-- `init_intersection_mutex` (`synchronization.c:24`). -/
def init_intersection_mutex : IntersectionMutex where
  intersection_available := true
  current_lane := -1
  lock_holder := 0
  lock_acquisition_time := 0
  active_quadrants := 0

/-- The condition under which the wait loop of `acquire_intersection`
(`synchronization.c:83`) exits and the grant code runs. -/
def acquire_guard (i : IntersectionMutex) (lid : Lane) : Prop :=
  i.intersection_available = true ∧
    (i.current_lane = -1 ∨ i.current_lane = (lid.val : Int))

/-- The grant performed by `acquire_intersection` (`synchronization.c:92`)
once its wait loop has exited: record the owner lane, holder thread `tid`,
time `now` and the lane's requested quadrant mask `req`. -/
def acquire_intersection (i : IntersectionMutex) (lid : Lane)
    (req tid now : Int) : IntersectionMutex :=
  { i with
    intersection_available := false
    current_lane := (lid.val : Int)
    lock_holder := tid
    lock_acquisition_time := now
    active_quadrants := req }

/-- `try_acquire_intersection` (`synchronization.c:103`) on the uncontended
path (the mutex trylock succeeded): grant when the intersection is available
or already owned by this lane, otherwise change nothing. -/
def try_acquire_intersection (i : IntersectionMutex) (lid : Lane)
    (req tid now : Int) : Bool × IntersectionMutex :=
  if i.intersection_available = true ∨ i.current_lane = (lid.val : Int) then
    (true, acquire_intersection i lid req tid now)
  else
    (false, i)

/-- `release_intersection` (`synchronization.c:132`): only the current owner
may release; anyone else leaves the state untouched. -/
def release_intersection (i : IntersectionMutex) (lid : Lane) : IntersectionMutex :=
  if i.current_lane = (lid.val : Int) then
    { i with
      intersection_available := true
      current_lane := -1
      lock_holder := 0
      lock_acquisition_time := 0
      active_quadrants := 0 }
  else
    i

/-- `reset_intersection_state` (`synchronization.c:416`). -/
def reset_intersection_state (i : IntersectionMutex) : IntersectionMutex :=
  { i with
    intersection_available := true
    current_lane := -1
    lock_holder := 0
    lock_acquisition_time := 0
    active_quadrants := 0 }

/-- The ownership invariant of the intersection lock: it is available
exactly when no lane owns it (`validate_intersection_state`,
`synchronization.c:393`, flags both violations as errors). -/
def IntersectionInv (i : IntersectionMutex) : Prop :=
  i.intersection_available = true ↔ i.current_lane = -1

instance (i : IntersectionMutex) : Decidable (IntersectionInv i) := by
  unfold IntersectionInv
  infer_instance

/-- One iteration of the victim scan of `resolve_deadlock`
(`synchronization.c:291`): keep the first BLOCKED lane whose priority is
strictly below the running minimum. -/
def resolve_step (lanes : Fin 4 → LaneProcess) (acc : Option (Fin 4) × Int)
    (i : Fin 4) : Option (Fin 4) × Int :=
  if (lanes i).state = LaneState.BLOCKED ∧ (lanes i).priority < acc.2 then
    (some i, (lanes i).priority)
  else acc

/-- The victim scan of `resolve_deadlock` (`synchronization.c:288`): fold
over the four lanes starting from `lowest_priority = INT_MAX`; `none` plays
the role of `victim_lane = -1`. -/
def resolve_deadlock_scan (lanes : Fin 4 → LaneProcess) : Option (Fin 4) × Int :=
  (List.finRange 4).foldl (resolve_step lanes) (none, INT_MAX)

/-- Characterization of the victim-scan accumulator after the lanes in `S`
have been examined: either nothing was selected and no lane of `S` was
eligible, or the selected lane is a BLOCKED lane of `S` of minimal priority
among the BLOCKED lanes of `S`. -/
def ResolveAcc (lanes : Fin 4 → LaneProcess) (S : List (Fin 4))
    (acc : Option (Fin 4) × Int) : Prop :=
  (acc = (none, INT_MAX) ∧
    ∀ j ∈ S, ¬((lanes j).state = LaneState.BLOCKED ∧ (lanes j).priority < INT_MAX)) ∨
  (∃ v, acc = (some v, (lanes v).priority) ∧ v ∈ S ∧
    (lanes v).state = LaneState.BLOCKED ∧ (lanes v).priority < INT_MAX ∧
    ∀ j ∈ S, (lanes j).state = LaneState.BLOCKED →
      (lanes v).priority ≤ (lanes j).priority)

/-- A lane record with the given state and priority and zeroed counters. -/
def mkLane (st : LaneState) (pri : Int) : LaneProcess :=
  ⟨st, pri, 0, 0, 0, 0, 0⟩

/-- Concrete lane array with two BLOCKED lanes: lane 0 at priority 5 (more
urgent) and lane 1 at priority 9 (less urgent). -/
def sampleBlockedLanes : Fin 4 → LaneProcess := fun i =>
  if i = 0 then mkLane LaneState.BLOCKED 5
  else if i = 1 then mkLane LaneState.BLOCKED 9
  else mkLane LaneState.WAITING 3

/-- `resolve_deadlock` (`synchronization.c:282`): unblock the selected
victim (set it READY via `update_lane_state` and signal it); if no victim
was selected nothing changes.  The condition-variable signal has no
representation in the state. -/
def resolve_deadlock (lanes : Fin 4 → LaneProcess) : Fin 4 → LaneProcess :=
  match (resolve_deadlock_scan lanes).1 with
  | none => lanes
  | some v => Function.update lanes v (update_lane_state (lanes v) LaneState.READY)

/-- `acquire_intersection_hybrid` (`traffic_mutex.c:103`).  The embedded
blocking `acquire_intersection` calls return a value that depends on
concurrent holders; that returned value is abstracted as the parameter
`acq` (the C call, being blocking, returns true once granted).  The
per-lane quadrant-mask bookkeeping (`lane->allocated_quadrants`) lives on
the lane struct and is not part of the Banker's state threaded here. -/
def acquire_intersection_hybrid (b : BankersState) (lid : Lane)
    (priority : Int) (needed : Quad → Int) (acq : Bool) : Bool × BankersState :=
  let res := request_resources b lid needed
  if res.1 then
    if acq then (true, res.2)
    else (false, deallocate_resources res.2 lid)
  else
    if priority = 1 then (acq, res.2)
    else
      let chk := is_safe_state res.2
      if chk.1 then (acq, chk.2)
      else (false, chk.2)

/-- `VEHICLE_CROSS_TIME` (`trafficguru.h`). -/
def VEHICLE_CROSS_TIME : Int := 3

/-- The estimated processing time used by SJF
(`sjf_scheduler.c:21`): `queue_length * VEHICLE_CROSS_TIME`. -/
def sjf_est (lane : LaneProcess) : Int :=
  get_lane_queue_length lane * VEHICLE_CROSS_TIME

/-- One iteration of the selection loop of `schedule_next_lane_sjf`
(`sjf_scheduler.c:18`); the accumulator carries
`(best_lane, min_estimated_time, earliest_arrival)`. -/
def sjf_step (lanes : Fin 4 → LaneProcess) (acc : Int × Int × Int)
    (i : Fin 4) : Int × Int × Int :=
  if is_lane_ready (lanes i) && !is_lane_blocked (lanes i) then
    if sjf_est (lanes i) < acc.2.1 then
      ((i.val : Int), sjf_est (lanes i), (lanes i).last_arrival_time)
    else if sjf_est (lanes i) = acc.2.1 ∧
        (lanes i).last_arrival_time < acc.2.2 then
      ((i.val : Int), acc.2.1, (lanes i).last_arrival_time)
    else acc
  else acc

/-- `schedule_next_lane_sjf` (`sjf_scheduler.c:8`): scan the four lanes with
`min_estimated_time = INT_MAX` and `earliest_arrival = time(NULL)` (`now`)
initially, returning the selected index or `-1`. -/
def schedule_next_lane_sjf (lanes : Fin 4 → LaneProcess) (now : Int) : Int :=
  ((List.finRange 4).foldl (sjf_step lanes) (-1, INT_MAX, now)).1

/-- A lane passes the SJF filter (`sjf_scheduler.c:19`): ready and not
blocked. -/
def sjf_eligible (lanes : Fin 4 → LaneProcess) (i : Fin 4) : Prop :=
  is_lane_ready (lanes i) = true ∧ is_lane_blocked (lanes i) = false

instance (lanes : Fin 4 → LaneProcess) (i : Fin 4) :
    Decidable (sjf_eligible lanes i) := by
  unfold sjf_eligible
  infer_instance

/-- MLFQ priority levels (`multilevel_scheduler.c:10`): HIGH = 0,
MEDIUM = 1, LOW = 2. -/
def PRIORITY_HIGH : Int := 0

/-- MLFQ lowest priority level. -/
def PRIORITY_LOW : Int := 2

/-- Waiting-time promotion threshold in seconds
(`multilevel_scheduler.c:33`). -/
def PROMOTION_THRESHOLD : Int := 10

/-- Consecutive-run demotion threshold (`multilevel_scheduler.c:34`). -/
def DEMOTION_THRESHOLD : Int := 5

/-- Aging threshold in seconds (`multilevel_scheduler.c:35`). -/
def AGING_THRESHOLD : Int := 15

/-- The `LanePriorityInfo` struct of `multilevel_scheduler.c:18`. -/
structure LanePriorityInfo where
  current_priority : Int
  consecutive_runs : Int
  last_promotion : Int
  last_demotion : Int
  time_in_current_level : Int
deriving DecidableEq

/-- The waiting-time promotion block of `update_lane_priority`
(`multilevel_scheduler.c:73`). -/
def mlfq_promote (info : LanePriorityInfo) (lane : LaneProcess) (now : Int) :
    LanePriorityInfo × LaneProcess :=
  if lane.waiting_time > PROMOTION_THRESHOLD ∧
      info.current_priority > PRIORITY_HIGH then
    ({ info with
        current_priority := info.current_priority - 1
        last_promotion := now
        consecutive_runs := 0 },
     { lane with priority := (info.current_priority - 1) + 1 })
  else (info, lane)

/-- The aging block of `update_lane_priority`
(`multilevel_scheduler.c:83`); it reads the `time_in_current_level` value
computed at function entry. -/
def mlfq_age (info : LanePriorityInfo) (lane : LaneProcess) (now : Int) :
    LanePriorityInfo × LaneProcess :=
  if info.time_in_current_level > AGING_THRESHOLD ∧
      info.current_priority > PRIORITY_HIGH then
    ({ info with
        current_priority := PRIORITY_HIGH
        last_promotion := now
        consecutive_runs := 0 },
     { lane with priority := 1 })
  else (info, lane)

/-- The consecutive-runs / demotion block of `update_lane_priority`
(`multilevel_scheduler.c:93`). -/
def mlfq_runs (info : LanePriorityInfo) (lane : LaneProcess) (now : Int) :
    LanePriorityInfo × LaneProcess :=
  if lane.state = LaneState.RUNNING then
    if info.consecutive_runs + 1 > DEMOTION_THRESHOLD ∧
        info.current_priority < PRIORITY_LOW then
      ({ info with
          current_priority := info.current_priority + 1
          last_demotion := now
          consecutive_runs := 0 },
       { lane with priority := (info.current_priority + 1) + 1 })
    else ({ info with consecutive_runs := info.consecutive_runs + 1 }, lane)
  else ({ info with consecutive_runs := 0 }, lane)

/-- `update_lane_priority` (`multilevel_scheduler.c:60`): recompute
`time_in_current_level = now - last_promotion`, then run the promotion,
aging, and consecutive-runs blocks in order. -/
def update_lane_priority (info : LanePriorityInfo) (lane : LaneProcess)
    (now : Int) : LanePriorityInfo × LaneProcess :=
  let info1 := { info with time_in_current_level := now - info.last_promotion }
  let p2 := mlfq_promote info1 lane now
  let p3 := mlfq_age p2.1 p2.2 now
  mlfq_runs p3.1 p3.2 now

/-- The Banker's data-model invariant (spec §3, §8): `need = maximum −
allocation`, `0 ≤ allocation ≤ maximum`, and per quadrant
`available + Σ_l allocation[l] = 1`. -/
def BankersInv (s : BankersState) : Prop :=
  (∀ (l : Lane) (q : Quad), s.need l q = s.maximum l q - s.allocation l q) ∧
  (∀ (l : Lane) (q : Quad), 0 ≤ s.allocation l q ∧ s.allocation l q ≤ s.maximum l q) ∧
  (∀ q : Quad, s.available q + ∑ l : Lane, s.allocation l q = 1)

instance (s : BankersState) : Decidable (BankersInv s) := by
  unfold BankersInv
  infer_instance

/-- A request exceeding lane 0's stated maximum claim: two units of
quadrant 0. -/
def badReq : Quad → Int := fun q => if q = 0 then 2 else 0

/-- Characterization of the SJF selection accumulator
`(best_lane, min_estimated_time, earliest_arrival)` after the lanes in `S`
have been examined (assuming every estimate is below `INT_MAX`): either no
lane of `S` passed the filter, or the best lane is an eligible lane of `S`
of minimal estimate, of earliest arrival among the minimal-estimate ones. -/
def SjfAcc (lanes : Fin 4 → LaneProcess) (now : Int) (S : List (Fin 4))
    (acc : Int × Int × Int) : Prop :=
  (acc = (-1, INT_MAX, now) ∧ ∀ j ∈ S, ¬ sjf_eligible lanes j) ∨
  (∃ v : Fin 4,
    acc = ((v.val : Int), sjf_est (lanes v), (lanes v).last_arrival_time) ∧
    v ∈ S ∧ sjf_eligible lanes v ∧ sjf_est (lanes v) < INT_MAX ∧
    (∀ j ∈ S, sjf_eligible lanes j → sjf_est (lanes v) ≤ sjf_est (lanes j)) ∧
    (∀ j ∈ S, sjf_eligible lanes j → sjf_est (lanes j) = sjf_est (lanes v) →
      (lanes v).last_arrival_time ≤ (lanes j).last_arrival_time))

/-- Concrete lane array for SJF: lane 0 idle; lane 1 ready with 2 queued
vehicles (arrival 5); lanes 2 and 3 tie at 1 queued vehicle, lane 3 having
the earlier arrival. -/
def sampleSjfLanes : Fin 4 → LaneProcess := fun i =>
  if i = 0 then ⟨LaneState.WAITING, 3, 0, 0, 0, 0, 0⟩
  else if i = 1 then ⟨LaneState.READY, 3, 2, 0, 5, 0, 0⟩
  else if i = 2 then ⟨LaneState.READY, 3, 1, 0, 7, 0, 0⟩
  else ⟨LaneState.RUNNING, 3, 1, 0, 3, 0, 0⟩

/-- Concrete MLFQ tracking record: MEDIUM level, three consecutive runs,
promoted last at time 0. -/
def sampleInfo : LanePriorityInfo := ⟨1, 3, 0, 0, 0⟩

/-- Concrete lane for the MLFQ aging witness: WAITING with no accumulated
waiting time. -/
def sampleMlfqLane : LaneProcess := mkLane LaneState.WAITING 2

/-- C3 (counterexample): `init_bankers_state` does not give lane 0 the
worst-case U-turn claim: `maximum[0][1] = 0`, while the U-turn claim for
quadrant 1 is 1. -/
theorem init_maximum_not_u_turn :
    init_bankers_state.maximum 0 1 ≠ 1 ∧ calculate_u_turn_quadrants 0 1 = 1 := by
  constructor <;> decide

/-- C3 (amended): after `init_bankers_state`, every quadrant is available
once, allocation is zero, `need = maximum`, and the default maximum claim is
the parity claim `maximum[l][q] = (q % 2 == l % 2) ? 1 : 0` — two quadrants
per lane, not the four-quadrant U-turn claim. -/
theorem init_bankers_state_spec :
    ∀ (l : Lane) (q : Quad),
      init_bankers_state.available q = 1 ∧
      init_bankers_state.allocation l q = 0 ∧
      init_bankers_state.need l q = init_bankers_state.maximum l q ∧
      init_bankers_state.maximum l q = (if q.val % 2 = l.val % 2 then 1 else 0) := by
  decide


/-- Membership in the unfinished set. -/
theorem mem_unfinished {finish : Lane → Bool} {l : Lane} :
    l ∈ unfinished finish ↔ finish l = false := by
  simp [unfinished]

/-- Finishing a lane removes exactly it from the unfinished set. -/
theorem unfinished_update (finish : Lane → Bool) (l : Lane) :
    unfinished (Function.update finish l true) = (unfinished finish).erase l := by
  ext x
  by_cases hx : x = l <;>
    simp [unfinished, Function.update, hx]

/-- `SpecSafe` is monotone in the work vector. -/
theorem SpecSafe.mono {alloc need : Lane → Quad → Int} {w w' : Quad → Int}
    (hw : ∀ q, w q ≤ w' q) {F : Finset Lane}
    (h : SpecSafe alloc need w F) : SpecSafe alloc need w' F := by
  induction h generalizing w' with
  | done _ => exact .done w'
  | step w F l hl hfin _ ih =>
    exact .step w' F l hl (fun q => (hfin q).trans (hw q))
      (ih fun q => add_le_add_right (hw q) _)

/-- A nonempty `SpecSafe` set contains a lane that can finish now. -/
theorem SpecSafe.exists_finishable {alloc need : Lane → Quad → Int}
    {w : Quad → Int} {F : Finset Lane} (h : SpecSafe alloc need w F)
    (hne : F.Nonempty) : ∃ m ∈ F, ∀ q, need m q ≤ w q := by
  cases h with
  | done _ => exact absurd hne (by simp)
  | step _ _ m hm hfin _ => exact ⟨m, hm, hfin⟩

/-- Exchange lemma: with nonnegative allocations, any lane finishable now may
be finished first without destroying a safe completion order. -/
theorem SpecSafe.pick {alloc need : Lane → Quad → Int}
    (hpos : ∀ l q, 0 ≤ alloc l q) {w : Quad → Int} {F : Finset Lane}
    (h : SpecSafe alloc need w F) :
    ∀ l ∈ F, (∀ q, need l q ≤ w q) →
      SpecSafe alloc need (fun q => w q + alloc l q) (F.erase l) := by
  induction h with
  | done _ =>
    intro l hl
    exact absurd hl (Finset.not_mem_empty l)
  | step w F m hm hfinm hrec ih =>
    intro l hl hfinl
    by_cases hml : m = l
    · subst hml; exact hrec
    · have hl' : l ∈ F.erase m := Finset.mem_erase.mpr ⟨fun h => hml h.symm, hl⟩
      have h2 := ih l hl' fun q => (hfinl q).trans (le_add_of_nonneg_right (hpos m q))
      refine .step _ _ m (Finset.mem_erase.mpr ⟨hml, hm⟩)
        (fun q => (hfinm q).trans (le_add_of_nonneg_right (hpos l q))) ?_
      have hw : (fun q => (w q + alloc l q) + alloc m q)
          = (fun q => (w q + alloc m q) + alloc l q) := by
        funext q; ring
      have hs : (F.erase l).erase m = (F.erase m).erase l := by
        ext x; simp [Finset.mem_erase]; tauto
      show SpecSafe alloc need (fun q => (w q + alloc l q) + alloc m q)
        ((F.erase l).erase m)
      rw [hw, hs]
      exact h2

/-- Soundness of the bounded safety loop: if every lane ends finished, the
initial unfinished set admits a safe completion in the sense of the spec. -/
theorem safety_loop_sound (alloc need : Lane → Quad → Int) :
    ∀ (fuel : Nat) (work : Quad → Int) (finish : Lane → Bool),
      (∀ l, (safety_loop alloc need fuel work finish).2 l = true) →
      SpecSafe alloc need work (unfinished finish) := by
  intro fuel
  induction fuel with
  | zero =>
    intro work finish h
    have hfin : ∀ l, finish l = true := by
      intro l; have := h l; simpa [safety_loop] using this
    have hemp : unfinished finish = ∅ := by
      ext l; simp [unfinished, hfin l]
    rw [hemp]; exact .done work
  | succ fuel ih =>
    intro work finish h
    cases hf : find_unfinished need work finish with
    | none =>
      have hfin : ∀ l, finish l = true := by
        intro l; have := h l; simpa [safety_loop, hf] using this
      have hemp : unfinished finish = ∅ := by
        ext l; simp [unfinished, hfin l]
      rw [hemp]; exact .done work
    | some l =>
      have hl := List.find?_some (by simpa [find_unfinished] using hf)
      rw [Bool.and_eq_true] at hl
      obtain ⟨hl1, hl2⟩ := hl
      have hlf : finish l = false := by
        revert hl1; cases finish l <;> simp
      have hfits : ∀ q, need l q ≤ work q := by
        intro q
        exact of_decide_eq_true hl2 q
      have hrec := ih (fun q => work q + alloc l q) (Function.update finish l true)
        (fun l' => by have := h l'; simpa [safety_loop, hf] using this)
      rw [unfinished_update] at hrec
      exact .step work _ l (mem_unfinished.mpr hlf) hfits hrec

/-- Completeness of the bounded safety loop: if the unfinished set admits a
safe completion and the fuel covers its cardinality, the loop finishes every
lane. -/
theorem safety_loop_complete (alloc need : Lane → Quad → Int)
    (hpos : ∀ l q, 0 ≤ alloc l q) :
    ∀ (fuel : Nat) (work : Quad → Int) (finish : Lane → Bool),
      SpecSafe alloc need work (unfinished finish) →
      (unfinished finish).card ≤ fuel →
      ∀ l, (safety_loop alloc need fuel work finish).2 l = true := by
  intro fuel
  induction fuel with
  | zero =>
    intro work finish hS hcard l
    have hemp : unfinished finish = ∅ := Finset.card_eq_zero.mp (Nat.le_zero.mp hcard)
    have hfin : finish l = true := by
      by_contra hl
      have hmem : l ∈ unfinished finish :=
        mem_unfinished.mpr (by revert hl; cases finish l <;> simp)
      rw [hemp] at hmem
      exact Finset.not_mem_empty l hmem
    simpa [safety_loop] using hfin
  | succ fuel ih =>
    intro work finish hS hcard l
    by_cases hemp : unfinished finish = ∅
    · have hfin : ∀ l', finish l' = true := by
        intro l'
        by_contra hl'
        have hmem : l' ∈ unfinished finish :=
          mem_unfinished.mpr (by revert hl'; cases finish l' <;> simp)
        rw [hemp] at hmem
        exact Finset.not_mem_empty l' hmem
      have hf : find_unfinished need work finish = none := by
        apply List.find?_eq_none.mpr
        intro x _
        simp [hfin x]
      simp [safety_loop, hf, hfin l]
    · have hne : (unfinished finish).Nonempty := Finset.nonempty_iff_ne_empty.mpr hemp
      obtain ⟨m, hm, hfinm⟩ := hS.exists_finishable hne
      obtain ⟨l1, hl1⟩ : ∃ l1, find_unfinished need work finish = some l1 := by
        cases hfind : find_unfinished need work finish with
        | none =>
          exfalso
          have hnone : ∀ x : Lane, finish x = false → canFinish need work x = false := by
            simpa [find_unfinished] using hfind
          have hc := hnone m (mem_unfinished.mp hm)
          simp only [canFinish, decide_eq_false_iff_not] at hc
          push_neg at hc
          obtain ⟨q, hq⟩ := hc
          exact absurd (hfinm q) (not_le.mpr hq)
        | some y => exact ⟨y, rfl⟩
      have hp := List.find?_some (by simpa [find_unfinished] using hl1)
      rw [Bool.and_eq_true] at hp
      obtain ⟨hp1, hp2⟩ := hp
      have hl1f : finish l1 = false := by
        revert hp1; cases finish l1 <;> simp
      have hl1mem : l1 ∈ unfinished finish := mem_unfinished.mpr hl1f
      have hfits : ∀ q, need l1 q ≤ work q := fun q => of_decide_eq_true hp2 q
      have hS' := hS.pick hpos l1 hl1mem hfits
      rw [← unfinished_update finish l1] at hS'
      have hcard' : (unfinished (Function.update finish l1 true)).card ≤ fuel := by
        rw [unfinished_update finish l1, Finset.card_erase_of_mem hl1mem]
        omega
      have := ih (fun q => work q + alloc l1 q) (Function.update finish l1 true) hS' hcard' l
      simpa [safety_loop, hl1] using this

/-- C2: on any Banker's state with nonnegative allocation (part of the
spec's data-model invariant), `is_safe_state` agrees with the unlocked
check, and the bounded (2·N = 8 iterations) greedy loop returns true exactly
when the spec's reference algorithm — repeatedly finishing any unfinished
lane whose need fits the work vector — finishes all four lanes, so the
iteration bound never cuts the computation short. -/
theorem is_safe_state_iff_spec (s : BankersState)
    (hpos : ∀ l q, 0 ≤ s.allocation l q) :
    (is_safe_state s).1 = is_safe_state_unlocked s ∧
    (is_safe_state_unlocked s = true ↔
      SpecSafe s.allocation s.need s.available Finset.univ) := by
  refine ⟨rfl, ?_, ?_⟩
  · intro h
    have hall : ∀ l,
        (safety_loop s.allocation s.need 8 s.available (fun _ => false)).2 l = true :=
      of_decide_eq_true h
    have := safety_loop_sound s.allocation s.need 8 s.available (fun _ => false) hall
    have huniv : unfinished (fun _ : Lane => false) = Finset.univ := by
      ext l; simp [unfinished]
    rwa [huniv] at this
  · intro h
    apply decide_eq_true
    apply safety_loop_complete s.allocation s.need hpos 8 s.available (fun _ => false)
    · have huniv : unfinished (fun _ : Lane => false) = Finset.univ := by
        ext l; simp [unfinished]
      rwa [huniv]
    · have huniv : unfinished (fun _ : Lane => false) = Finset.univ := by
        ext l; simp [unfinished]
      rw [huniv]
      simp

/-- Witness for C2 at the freshly initialized state: its allocation is
nonnegative, the bounded check accepts it, and hence the spec's reference
algorithm completes all four lanes. -/
theorem is_safe_state_iff_spec_witness :
    (∀ l q, 0 ≤ init_bankers_state.allocation l q) ∧
    SpecSafe init_bankers_state.allocation init_bankers_state.need
      init_bankers_state.available Finset.univ :=
  ⟨by decide,
    ((is_safe_state_iff_spec init_bankers_state (by decide)).2).mp (by decide)⟩

/-- Field-level description of the unsafe-rollback outcome of
`request_resources`: the matrices and the available vector return to their
pre-request values and only `safe_state` and `deadlock_preventions` move. -/
theorem request_resources_unsafe_fields (s : BankersState) (l : Lane)
    (r : Quad → Int) (h1 : ¬ ∃ q, r q > s.need l q)
    (h2 : ¬ ∃ q, r q > s.available q)
    (hnosafe : is_safe_state_unlocked (tentative_alloc s l r) = false) :
    (request_resources s l r).1 = false ∧
    (request_resources s l r).2.available = s.available ∧
    (request_resources s l r).2.allocation = s.allocation ∧
    (request_resources s l r).2.need = s.need ∧
    (request_resources s l r).2.maximum = s.maximum ∧
    (request_resources s l r).2.deadlock_preventions
      = s.deadlock_preventions + 1 := by
  simp only [request_resources, if_neg h1, if_neg h2, hnosafe, Bool.false_eq_true,
    if_false]
  refine ⟨by trivial, ?_, ?_, ?_, by trivial, by trivial⟩
  · funext q
    simp only [rollback_alloc, tentative_alloc]
    ring
  · funext l' q
    by_cases hl' : l' = l <;>
      simp [rollback_alloc, tentative_alloc, hl']
  · funext l' q
    by_cases hl' : l' = l <;>
      simp [rollback_alloc, tentative_alloc, hl']

/-- C1: `request_resources` follows the four-step protocol: rejection because
the request exceeds the lane's need or the available vector returns `false`
with the state completely unchanged; otherwise the tentative transfer is
checked, committed with `true` when safe, and when unsafe it is rolled back
exactly (all four matrices and the available vector as before) with
`deadlock_preventions` incremented by one and `false` returned. -/
theorem request_resources_protocol (s : BankersState) (l : Lane) (r : Quad → Int) :
    (((∃ q, r q > s.need l q) ∨ (∃ q, r q > s.available q)) →
      request_resources s l r = (false, s)) ∧
    (¬ (∃ q, r q > s.need l q) → ¬ (∃ q, r q > s.available q) →
      (is_safe_state_unlocked (tentative_alloc s l r) = true →
        request_resources s l r
          = (true, { tentative_alloc s l r with safe_state := true })) ∧
      (is_safe_state_unlocked (tentative_alloc s l r) = false →
        (request_resources s l r).1 = false ∧
        (request_resources s l r).2.available = s.available ∧
        (request_resources s l r).2.allocation = s.allocation ∧
        (request_resources s l r).2.need = s.need ∧
        (request_resources s l r).2.maximum = s.maximum ∧
        (request_resources s l r).2.deadlock_preventions
          = s.deadlock_preventions + 1)) := by
  constructor
  · rintro (h | h)
    · simp [request_resources, h]
    · by_cases h1 : ∃ q, r q > s.need l q
      · simp [request_resources, h1]
      · simp [request_resources, h1, h]
  · intro h1 h2
    constructor
    · intro hsafe
      simp [request_resources, h1, h2, hsafe]
    · intro hnosafe
      exact request_resources_unsafe_fields s l r h1 h2 hnosafe

/-- Witness for C1: on `sampleTight`, lane 0's one-unit request passes both
bound checks, is found unsafe, and is rolled back with the counter bumped. -/
theorem request_resources_protocol_witness :
    is_safe_state_unlocked (tentative_alloc sampleTight 0 sampleReq) = false ∧
    ((request_resources sampleTight 0 sampleReq).1 = false ∧
     (request_resources sampleTight 0 sampleReq).2.available = sampleTight.available ∧
     (request_resources sampleTight 0 sampleReq).2.allocation = sampleTight.allocation ∧
     (request_resources sampleTight 0 sampleReq).2.need = sampleTight.need ∧
     (request_resources sampleTight 0 sampleReq).2.maximum = sampleTight.maximum ∧
     (request_resources sampleTight 0 sampleReq).2.deadlock_preventions
       = sampleTight.deadlock_preventions + 1) :=
  ⟨by decide,
    ((request_resources_protocol sampleTight 0 sampleReq).2
      (by decide) (by decide)).2 (by decide)⟩

/-- `tentative_alloc` preserves the invariant for in-bounds nonnegative
requests. -/
theorem tentative_alloc_inv (s : BankersState) (l : Lane) (r : Quad → Int)
    (hInv : BankersInv s) (hr : ∀ q, 0 ≤ r q) (hle : ∀ q, r q ≤ s.need l q) :
    BankersInv (tentative_alloc s l r) := by
  obtain ⟨hneed, hbound, hsum⟩ := hInv
  refine ⟨?_, ?_, ?_⟩
  · intro l' q
    by_cases hl' : l' = l
    · simp only [tentative_alloc, if_pos hl']
      have := hneed l' q
      omega
    · simp only [tentative_alloc, if_neg hl']
      exact hneed l' q
  · intro l' q
    by_cases hl' : l' = l
    · subst hl'
      simp only [tentative_alloc, if_pos rfl]
      have h1 := hbound l' q
      have h2 := hle q
      have h3 := hneed l' q
      have h4 := hr q
      omega
    · simp only [tentative_alloc, if_neg hl']
      exact hbound l' q
  · intro q
    have hs := hsum q
    rw [Fin.sum_univ_four] at hs ⊢
    fin_cases l <;> simp [tentative_alloc] <;> omega

/-- C4: the data-model invariants hold after `init_bankers_state` and are
preserved by `request_resources` (granted or rejected), by
`allocate_resources`, and by `deallocate_resources`, for nonnegative request
vectors. -/
theorem bankers_invariants_preserved (s : BankersState) (l : Lane)
    (r a : Quad → Int) (hInv : BankersInv s)
    (hr : ∀ q, 0 ≤ r q) (ha : ∀ q, 0 ≤ a q) :
    BankersInv init_bankers_state ∧
    BankersInv (request_resources s l r).2 ∧
    BankersInv (allocate_resources s l a) ∧
    BankersInv (deallocate_resources s l) := by
  obtain ⟨hneed, hbound, hsum⟩ := hInv
  refine ⟨by decide, ?_, ?_, ?_⟩
  · -- request_resources
    by_cases h1 : ∃ q, r q > s.need l q
    · simp only [request_resources, if_pos h1]
      exact ⟨hneed, hbound, hsum⟩
    · by_cases h2 : ∃ q, r q > s.available q
      · simp only [request_resources, if_neg h1, if_pos h2]
        exact ⟨hneed, hbound, hsum⟩
      · have h1' : ∀ q, r q ≤ s.need l q :=
          fun q => not_lt.mp fun hq => h1 ⟨q, hq⟩
        have htent := tentative_alloc_inv s l r ⟨hneed, hbound, hsum⟩ hr h1'
        by_cases hsafe : is_safe_state_unlocked (tentative_alloc s l r) = true
        · simp only [request_resources, if_neg h1, if_neg h2, hsafe, if_true]
          exact htent
        · have hu := request_resources_unsafe_fields s l r h1 h2
            (by revert hsafe; cases is_safe_state_unlocked (tentative_alloc s l r) <;> simp)
          obtain ⟨_, hav, hal, hne, hmx, _⟩ := hu
          refine ⟨?_, ?_, ?_⟩
          · intro l' q
            rw [hne, hmx, hal]
            exact hneed l' q
          · intro l' q
            rw [hal, hmx]
            exact hbound l' q
          · intro q
            rw [hav, hal]
            exact hsum q
  · -- allocate_resources
    refine ⟨?_, ?_, ?_⟩
    · intro l' q
      by_cases hl' : l' = l
      · subst hl'
        by_cases hc : a q ≤ s.available q ∧ a q ≤ s.need l' q
        · have h2 := hneed l' q
          simp [allocate_resources, hc.1, hc.2]
          omega
        · simp only [allocate_resources]
          rw [if_neg fun h => hc h.2, if_neg fun h => hc h.2]
          exact hneed l' q
      · simp only [allocate_resources]
        rw [if_neg fun h => hl' h.1, if_neg fun h => hl' h.1]
        exact hneed l' q
    · intro l' q
      by_cases hl' : l' = l
      · subst hl'
        by_cases hc : a q ≤ s.available q ∧ a q ≤ s.need l' q
        · simp only [allocate_resources, if_pos (⟨rfl, hc⟩ : l' = l' ∧ _)]
          have h1 := hbound l' q
          have h2 := hneed l' q
          have h3 := ha q
          have h4 := hc.2
          constructor <;> omega
        · simp only [allocate_resources]
          rw [if_neg fun h => hc h.2]
          exact hbound l' q
      · simp only [allocate_resources]
        rw [if_neg fun h => hl' h.1]
        exact hbound l' q
    · intro q
      have hs := hsum q
      by_cases hc : a q ≤ s.available q ∧ a q ≤ s.need l q
      · rw [Fin.sum_univ_four] at hs ⊢
        fin_cases l <;> simp [allocate_resources, hc] <;> omega
      · rw [Fin.sum_univ_four] at hs ⊢
        fin_cases l <;> simp [allocate_resources, hc] <;> omega
  · -- deallocate_resources
    refine ⟨?_, ?_, ?_⟩
    · intro l' q
      by_cases hl' : l' = l
      · subst hl'
        have := hneed l' q
        simp [deallocate_resources]
        omega
      · simp only [deallocate_resources, if_neg hl']
        exact hneed l' q
    · intro l' q
      by_cases hl' : l' = l
      · subst hl'
        simp only [deallocate_resources, if_pos rfl]
        exact ⟨le_refl 0, le_trans (hbound l' q).1 (hbound l' q).2⟩
      · simp only [deallocate_resources, if_neg hl']
        exact hbound l' q
    · intro q
      have hs := hsum q
      rw [Fin.sum_univ_four] at hs ⊢
      fin_cases l <;> simp [deallocate_resources] <;> omega

/-- Witness for C4 at the freshly initialized state with a one-unit request
vector. -/
theorem bankers_invariants_preserved_witness :
    BankersInv init_bankers_state ∧ (∀ q, 0 ≤ sampleReq q) ∧
    (BankersInv (request_resources init_bankers_state 0 sampleReq).2 ∧
     BankersInv (allocate_resources init_bankers_state 0 sampleReq) ∧
     BankersInv (deallocate_resources init_bankers_state 0)) :=
  ⟨by decide, by decide,
    (bankers_invariants_preserved init_bankers_state 0 sampleReq sampleReq
      (by decide) (by decide) (by decide)).2⟩

/-- C5: if lane `l` holds no allocation, `request_resources(l, r)` followed by
`deallocate_resources(l)` restores `available`, `allocation[l]` and `need[l]`
to their pre-request values, whether the request was granted, rejected on the
bound checks, or rejected as unsafe. -/
theorem request_then_deallocate_restores (s : BankersState) (l : Lane)
    (r : Quad → Int) (h0 : ∀ q, s.allocation l q = 0) :
    (deallocate_resources (request_resources s l r).2 l).available = s.available ∧
    (deallocate_resources (request_resources s l r).2 l).allocation l
      = s.allocation l ∧
    (deallocate_resources (request_resources s l r).2 l).need l = s.need l := by
  by_cases h1 : ∃ q, r q > s.need l q
  · simp only [request_resources, if_pos h1]
    refine ⟨?_, ?_, ?_⟩ <;> funext q <;> have := h0 q <;>
      simp only [deallocate_resources, eq_self_iff_true, if_true] <;> omega
  · by_cases h2 : ∃ q, r q > s.available q
    · simp only [request_resources, if_neg h1, if_pos h2]
      refine ⟨?_, ?_, ?_⟩ <;> funext q <;> have := h0 q <;>
        simp only [deallocate_resources, eq_self_iff_true, if_true] <;> omega
    · by_cases hsafe : is_safe_state_unlocked (tentative_alloc s l r) = true
      · have hcommit : (request_resources s l r).2
            = { tentative_alloc s l r with safe_state := true } := by
          simp [request_resources, h1, h2, hsafe]
        rw [hcommit]
        refine ⟨?_, ?_, ?_⟩ <;> funext q <;> have := h0 q <;>
          simp only [deallocate_resources, tentative_alloc, eq_self_iff_true,
            if_true] <;> omega
      · obtain ⟨_, hav, hal, hne, _, _⟩ := request_resources_unsafe_fields s l r h1 h2
          (by revert hsafe; cases is_safe_state_unlocked (tentative_alloc s l r) <;> simp)
        refine ⟨?_, ?_, ?_⟩
        · funext q
          have := h0 q
          simp only [deallocate_resources, eq_self_iff_true, if_true]
          rw [hav, hal]
          omega
        · funext q
          have := h0 q
          simp only [deallocate_resources, eq_self_iff_true, if_true]
          omega
        · funext q
          have := h0 q
          simp only [deallocate_resources, eq_self_iff_true, if_true]
          rw [hne, hal]
          omega

/-- Witness for C5 at the freshly initialized state (zero allocation) with a
one-unit request on lane 0. -/
theorem request_then_deallocate_restores_witness :
    (∀ q, init_bankers_state.allocation 0 q = 0) ∧
    ((deallocate_resources (request_resources init_bankers_state 0 sampleReq).2
        0).available = init_bankers_state.available ∧
     (deallocate_resources (request_resources init_bankers_state 0 sampleReq).2
        0).allocation 0 = init_bankers_state.allocation 0 ∧
     (deallocate_resources (request_resources init_bankers_state 0 sampleReq).2
        0).need 0 = init_bankers_state.need 0) :=
  ⟨by decide,
    request_then_deallocate_restores init_bankers_state 0 sampleReq (by decide)⟩

/-- C10: the ownership invariant `available ⇔ current_lane = −1` holds after
initialization and is preserved by the grant of `acquire_intersection`, by
`try_acquire_intersection`, by `release_intersection`, and by
`reset_intersection_state`; a release by a lane that is not the current
holder leaves the whole state unchanged. -/
theorem intersection_lock_invariant (i : IntersectionMutex) (lid : Lane)
    (req tid now : Int) (hInv : IntersectionInv i) :
    IntersectionInv init_intersection_mutex ∧
    IntersectionInv (acquire_intersection i lid req tid now) ∧
    IntersectionInv (try_acquire_intersection i lid req tid now).2 ∧
    IntersectionInv (release_intersection i lid) ∧
    IntersectionInv (reset_intersection_state i) ∧
    (i.current_lane ≠ (lid.val : Int) → release_intersection i lid = i) := by
  have hlid : (0 : Int) ≤ (lid.val : Int) := Int.ofNat_nonneg _
  refine ⟨by decide, ?_, ?_, ?_, ?_, ?_⟩
  · simp only [IntersectionInv, acquire_intersection]
    constructor
    · intro h
      exact absurd h (by simp)
    · intro h
      omega
  · by_cases h : i.intersection_available = true ∨ i.current_lane = (lid.val : Int)
    · simp only [try_acquire_intersection, if_pos h, IntersectionInv,
        acquire_intersection]
      constructor
      · intro h
        exact absurd h (by simp)
      · intro h
        omega
    · simp only [try_acquire_intersection, if_neg h]
      exact hInv
  · by_cases h : i.current_lane = (lid.val : Int)
    · simp only [release_intersection, if_pos h, IntersectionInv]
    · simp only [release_intersection, if_neg h]
      exact hInv
  · simp only [IntersectionInv, reset_intersection_state]
  · intro hno
    simp only [release_intersection, if_neg hno]

/-- Witness for C10: in the freshly initialized intersection, a release by
lane 1 (not the holder) changes nothing. -/
theorem intersection_lock_invariant_witness :
    IntersectionInv init_intersection_mutex ∧
    init_intersection_mutex.current_lane ≠ ((1 : Lane).val : Int) ∧
    release_intersection init_intersection_mutex 1 = init_intersection_mutex :=
  ⟨by decide, by decide,
    (intersection_lock_invariant init_intersection_mutex 1 0 0 0
      (by decide)).2.2.2.2.2 (by decide)⟩

/-- The victim-scan accumulator characterization is preserved along the
fold. -/
theorem resolve_foldl (lanes : Fin 4 → LaneProcess) :
    ∀ (L S : List (Fin 4)) (acc : Option (Fin 4) × Int),
      ResolveAcc lanes S acc →
      ResolveAcc lanes (S ++ L) (L.foldl (resolve_step lanes) acc) := by
  intro L
  induction L with
  | nil =>
    intro S acc h
    simpa using h
  | cons i L ih =>
    intro S acc h
    have hstep : ResolveAcc lanes (S ++ [i]) (resolve_step lanes acc i) := by
      by_cases hc : (lanes i).state = LaneState.BLOCKED ∧ (lanes i).priority < acc.2
      · rcases h with ⟨hacc, hnone⟩ | ⟨v, hacc, hv, hb, hlt, hmin⟩
        · right
          refine ⟨i, ?_, ?_, hc.1, ?_, ?_⟩
          · simp [resolve_step, if_pos hc]
          · simp
          · rw [hacc] at hc
            exact hc.2
          · intro j hj hbj
            rcases (by simpa using hj : j ∈ S ∨ j = i) with hj | hj
            · have := hnone j hj
              rw [hacc] at hc
              have : ¬ (lanes j).priority < INT_MAX := fun hlt => this ⟨hbj, hlt⟩
              omega
            · subst hj
              exact le_refl _
        · right
          have h1 : (lanes i).state = LaneState.BLOCKED := hc.1
          have h2 : (lanes i).priority < (lanes v).priority := by
            have h := hc.2
            rw [hacc] at h
            exact h
          refine ⟨i, ?_, by simp, h1, by omega, ?_⟩
          · simp [resolve_step, hacc, h1, h2]
          · intro j hj hbj
            rcases (by simpa using hj : j ∈ S ∨ j = i) with hj | hj
            · have := hmin j hj hbj
              omega
            · subst hj
              exact le_refl _
      · have hacc' : resolve_step lanes acc i = acc := by
          simp [resolve_step, if_neg hc]
        rw [hacc']
        rcases h with ⟨hacc, hnone⟩ | ⟨v, hacc, hv, hb, hlt, hmin⟩
        · left
          refine ⟨hacc, ?_⟩
          intro j hj
          rcases (by simpa using hj : j ∈ S ∨ j = i) with hj | hj
          · exact hnone j hj
          · subst hj
            rw [hacc] at hc
            exact hc
        · right
          refine ⟨v, hacc, by simp [hv], hb, hlt, ?_⟩
          intro j hj hbj
          rcases (by simpa using hj : j ∈ S ∨ j = i) with hj | hj
          · exact hmin j hj hbj
          · subst hj
            rw [hacc] at hc
            have : ¬ (lanes j).priority < (lanes v).priority := fun hl => hc ⟨hbj, hl⟩
            omega
    have hrest := ih (S ++ [i]) (resolve_step lanes acc i) hstep
    simpa [List.append_assoc] using hrest

/-- C6 (counterexample): on `sampleBlockedLanes`, where lane 1 is the
lowest-priority blocked lane under the lower-integer-is-more-urgent
convention (priority 9 against lane 0's priority 5), `resolve_deadlock`
leaves lane 1 BLOCKED and instead unblocks lane 0, the most urgent blocked
lane. -/
theorem resolve_deadlock_counterexample :
    (sampleBlockedLanes 1).state = LaneState.BLOCKED ∧
    (sampleBlockedLanes 1).priority = 9 ∧
    (sampleBlockedLanes 0).state = LaneState.BLOCKED ∧
    (sampleBlockedLanes 0).priority = 5 ∧
    (resolve_deadlock sampleBlockedLanes 1).state = LaneState.BLOCKED ∧
    (resolve_deadlock sampleBlockedLanes 0).state = LaneState.READY := by
  decide

/-- C6 (amended): when at least one lane is BLOCKED (and priorities are
below `INT_MAX`, as the 1–5 scale of the program guarantees),
`resolve_deadlock` unblocks exactly one lane: a BLOCKED lane whose priority
value is minimal among the BLOCKED lanes — i.e. the most urgent blocked
lane, not the least urgent one — transitioning it to READY with a signal and
leaving every other lane unchanged. -/
theorem resolve_deadlock_selects_most_urgent (lanes : Fin 4 → LaneProcess)
    (hb : ∃ i, (lanes i).state = LaneState.BLOCKED)
    (hp : ∀ i, (lanes i).priority < INT_MAX) :
    ∃ v, (lanes v).state = LaneState.BLOCKED ∧
      (∀ j, (lanes j).state = LaneState.BLOCKED →
        (lanes v).priority ≤ (lanes j).priority) ∧
      resolve_deadlock lanes
        = Function.update lanes v (update_lane_state (lanes v) LaneState.READY) := by
  have hacc := resolve_foldl lanes (List.finRange 4) [] (none, INT_MAX)
    (Or.inl ⟨rfl, by simp⟩)
  rcases hacc with ⟨hacc, hnone⟩ | ⟨v, hacc, _, hbv, _, hmin⟩
  · obtain ⟨i, hbi⟩ := hb
    exact absurd ⟨hbi, hp i⟩ (hnone i (by simp [List.mem_finRange]))
  · refine ⟨v, hbv, ?_, ?_⟩
    · intro j hbj
      exact hmin j (by simp [List.mem_finRange]) hbj
    · have hscan : (resolve_deadlock_scan lanes).1 = some v := by
        have : resolve_deadlock_scan lanes
            = (some v, (lanes v).priority) := by
          simpa [resolve_deadlock_scan] using hacc
        rw [this]
      simp only [resolve_deadlock, hscan]

/-- Witness for C6 (amended) on `sampleBlockedLanes`. -/
theorem resolve_deadlock_selects_most_urgent_witness :
    (∃ i, (sampleBlockedLanes i).state = LaneState.BLOCKED) ∧
    (∀ i, (sampleBlockedLanes i).priority < INT_MAX) ∧
    (∃ v, (sampleBlockedLanes v).state = LaneState.BLOCKED ∧
      (∀ j, (sampleBlockedLanes j).state = LaneState.BLOCKED →
        (sampleBlockedLanes v).priority ≤ (sampleBlockedLanes j).priority) ∧
      resolve_deadlock sampleBlockedLanes
        = Function.update sampleBlockedLanes v
            (update_lane_state (sampleBlockedLanes v) LaneState.READY)) :=
  ⟨by decide, by decide,
    resolve_deadlock_selects_most_urgent sampleBlockedLanes (by decide) (by decide)⟩

/-- C7: in hybrid acquisition, when the Banker's request is rejected the
grant may proceed (the blocking intersection acquire is attempted and its
result returned) iff the lane's priority is 1 (emergency) or the system-wide
safety check reports the state safe — otherwise false is returned with no
acquire attempt; and when the Banker's request succeeds but the intersection
acquire fails, the Banker's allocation is deallocated and false returned. -/
theorem acquire_intersection_hybrid_spec (b : BankersState) (lid : Lane)
    (priority : Int) (needed : Quad → Int) (acq : Bool) :
    ((request_resources b lid needed).1 = false →
      ((acquire_intersection_hybrid b lid priority needed acq).1 = true ↔
        ((priority = 1 ∨
          is_safe_state_unlocked (request_resources b lid needed).2 = true) ∧
          acq = true))) ∧
    ((request_resources b lid needed).1 = true → acq = false →
      acquire_intersection_hybrid b lid priority needed acq
        = (false, deallocate_resources (request_resources b lid needed).2 lid)) := by
  constructor
  · intro hrej
    by_cases hp : priority = 1
    · simp [acquire_intersection_hybrid, hrej, hp]
    · by_cases hs : is_safe_state_unlocked (request_resources b lid needed).2 = true
      · simp [acquire_intersection_hybrid, is_safe_state, hrej, hp, hs]
      · simp [acquire_intersection_hybrid, is_safe_state, hrej, hp, hs]
  · intro hok hacq
    simp [acquire_intersection_hybrid, hok, hacq]

/-- Witness for C7: on `sampleTight`, lane 0's two-unit request is rejected,
the lane is not an emergency, the overall state is unsafe, and the override
iff instantiates concretely. -/
theorem acquire_intersection_hybrid_spec_witness :
    (request_resources sampleTight 0 badReq).1 = false ∧
    ((acquire_intersection_hybrid sampleTight 0 3 badReq true).1 = true ↔
      (((3 : Int) = 1 ∨
        is_safe_state_unlocked (request_resources sampleTight 0 badReq).2 = true) ∧
        (true : Bool) = true)) :=
  ⟨by decide,
    (acquire_intersection_hybrid_spec sampleTight 0 3 badReq true).1 (by decide)⟩

/-- The SJF filter as the Bool test of the source loop. -/
theorem sjf_eligible_iff (lanes : Fin 4 → LaneProcess) (i : Fin 4) :
    sjf_eligible lanes i ↔
      (is_lane_ready (lanes i) && !is_lane_blocked (lanes i)) = true := by
  simp [sjf_eligible, Bool.and_eq_true, Bool.not_eq_true']

/-- The SJF accumulator characterization is preserved along the fold. -/
theorem sjf_foldl (lanes : Fin 4 → LaneProcess) (now : Int)
    (hbound : ∀ i, sjf_est (lanes i) < INT_MAX) :
    ∀ (L S : List (Fin 4)) (acc : Int × Int × Int),
      SjfAcc lanes now S acc →
      SjfAcc lanes now (S ++ L) (L.foldl (sjf_step lanes) acc) := by
  intro L
  induction L with
  | nil =>
    intro S acc h
    simpa using h
  | cons i L ih =>
    intro S acc h
    have hstep : SjfAcc lanes now (S ++ [i]) (sjf_step lanes acc i) := by
      by_cases he : sjf_eligible lanes i
      · have hb := (sjf_eligible_iff lanes i).mp he
        rcases h with ⟨hacc, hnone⟩ | ⟨v, hacc, hv, hev, hlt, hmin, htie⟩
        · have hcond : sjf_est (lanes i) < acc.2.1 := by
            rw [hacc]
            exact hbound i
          right
          refine ⟨i, ?_, by simp, he, hbound i, ?_, ?_⟩
          · simp [sjf_step, hb, hcond]
          · intro j hj hej
            rcases (by simpa using hj : j ∈ S ∨ j = i) with hj | hj
            · exact absurd hej (hnone j hj)
            · subst hj
              exact le_refl _
          · intro j hj hej _
            rcases (by simpa using hj : j ∈ S ∨ j = i) with hj | hj
            · exact absurd hej (hnone j hj)
            · subst hj
              exact le_refl _
        · by_cases h1 : sjf_est (lanes i) < acc.2.1
          · have h1' : sjf_est (lanes i) < sjf_est (lanes v) := by
              rw [hacc] at h1
              exact h1
            right
            refine ⟨i, ?_, by simp, he, by omega, ?_, ?_⟩
            · simp [sjf_step, hb, h1]
            · intro j hj hej
              rcases (by simpa using hj : j ∈ S ∨ j = i) with hj | hj
              · have := hmin j hj hej
                omega
              · subst hj
                exact le_refl _
            · intro j hj hej heq
              rcases (by simpa using hj : j ∈ S ∨ j = i) with hj | hj
              · exfalso
                have := hmin j hj hej
                omega
              · subst hj
                exact le_refl _
          · have h1' : ¬ sjf_est (lanes i) < sjf_est (lanes v) := by
              rw [hacc] at h1
              exact h1
            by_cases h2 : sjf_est (lanes i) = acc.2.1 ∧
                (lanes i).last_arrival_time < acc.2.2
            · have heq : sjf_est (lanes i) = sjf_est (lanes v) := by
                have h := h2.1
                rw [hacc] at h
                exact h
              have harr : (lanes i).last_arrival_time
                  < (lanes v).last_arrival_time := by
                have h := h2.2
                rw [hacc] at h
                exact h
              right
              refine ⟨i, ?_, by simp, he, by omega, ?_, ?_⟩
              · rw [hacc]
                simp [sjf_step, hb, heq, harr, h1']
              · intro j hj hej
                rcases (by simpa using hj : j ∈ S ∨ j = i) with hj | hj
                · have := hmin j hj hej
                  omega
                · subst hj
                  exact le_refl _
              · intro j hj hej heq2
                rcases (by simpa using hj : j ∈ S ∨ j = i) with hj | hj
                · have := htie j hj hej (by omega)
                  omega
                · subst hj
                  exact le_refl _
            · have h2' : ¬ (sjf_est (lanes i) = sjf_est (lanes v) ∧
                  (lanes i).last_arrival_time < (lanes v).last_arrival_time) := by
                rw [hacc] at h2
                exact h2
              have hstep_eq : sjf_step lanes acc i = acc := by
                simp only [sjf_step, hb, if_true]
                rw [if_neg h1, if_neg h2]
              rw [hstep_eq]
              right
              refine ⟨v, hacc, by simp [hv], hev, hlt, ?_, ?_⟩
              · intro j hj hej
                rcases (by simpa using hj : j ∈ S ∨ j = i) with hj | hj
                · exact hmin j hj hej
                · subst hj
                  omega
              · intro j hj hej heq2
                rcases (by simpa using hj : j ∈ S ∨ j = i) with hj | hj
                · exact htie j hj hej heq2
                · subst hj
                  have : ¬ (lanes j).last_arrival_time
                      < (lanes v).last_arrival_time :=
                    fun hl => h2' ⟨heq2, hl⟩
                  omega
      · have hne : ¬ (is_lane_ready (lanes i) && !is_lane_blocked (lanes i)) = true :=
          fun hb => he ((sjf_eligible_iff lanes i).mpr hb)
        have hstep_eq : sjf_step lanes acc i = acc := by
          simp only [sjf_step]
          rw [if_neg hne]
        rw [hstep_eq]
        rcases h with ⟨hacc, hnone⟩ | ⟨v, hacc, hv, hev, hlt, hmin, htie⟩
        · left
          refine ⟨hacc, ?_⟩
          intro j hj
          rcases (by simpa using hj : j ∈ S ∨ j = i) with hj | hj
          · exact hnone j hj
          · subst hj
            exact he
        · right
          refine ⟨v, hacc, by simp [hv], hev, hlt, ?_, ?_⟩
          · intro j hj hej
            rcases (by simpa using hj : j ∈ S ∨ j = i) with hj | hj
            · exact hmin j hj hej
            · subst hj
              exact absurd hej he
          · intro j hj hej heq2
            rcases (by simpa using hj : j ∈ S ∨ j = i) with hj | hj
            · exact htie j hj hej heq2
            · subst hj
              exact absurd hej he
    have hrest := ih (S ++ [i]) (sjf_step lanes acc i) hstep
    simpa [List.append_assoc] using hrest

/-- C8: under SJF, among the lanes that are ready and not blocked the
scheduler returns one whose `queue_length × VEHICLE_CROSS_TIME` estimate is
minimal, breaking ties by earliest `last_arrival_time`, and returns the
sentinel `-1` when no lane is ready (estimates below `INT_MAX`, as the
20-vehicle queue capacity guarantees). -/
theorem schedule_next_lane_sjf_spec (lanes : Fin 4 → LaneProcess) (now : Int)
    (hbound : ∀ i, sjf_est (lanes i) < INT_MAX) :
    ((∀ i, ¬ sjf_eligible lanes i) → schedule_next_lane_sjf lanes now = -1) ∧
    ((∃ i, sjf_eligible lanes i) →
      ∃ v : Fin 4, schedule_next_lane_sjf lanes now = (v.val : Int) ∧
        sjf_eligible lanes v ∧
        (∀ j, sjf_eligible lanes j → sjf_est (lanes v) ≤ sjf_est (lanes j)) ∧
        (∀ j, sjf_eligible lanes j → sjf_est (lanes j) = sjf_est (lanes v) →
          (lanes v).last_arrival_time ≤ (lanes j).last_arrival_time)) := by
  have hacc := sjf_foldl lanes now hbound (List.finRange 4) [] (-1, INT_MAX, now)
    (Or.inl ⟨rfl, by simp⟩)
  constructor
  · intro hno
    rcases hacc with ⟨hacc, _⟩ | ⟨v, _, _, hev, _⟩
    · simp [schedule_next_lane_sjf, hacc]
    · exact absurd hev (hno v)
  · intro hex
    rcases hacc with ⟨_, hnone⟩ | ⟨v, hacc, _, hev, _, hmin, htie⟩
    · obtain ⟨i, hei⟩ := hex
      exact absurd hei (hnone i (by simp [List.mem_finRange]))
    · refine ⟨v, ?_, hev, ?_, ?_⟩
      · simp [schedule_next_lane_sjf, hacc]
      · intro j hej
        exact hmin j (by simp [List.mem_finRange]) hej
      · intro j hej heq
        exact htie j (by simp [List.mem_finRange]) hej heq

/-- Witness for C8 on `sampleSjfLanes`: lanes 2 and 3 tie at the minimal
estimate and lane 3 has the earlier arrival. -/
theorem schedule_next_lane_sjf_spec_witness :
    (∀ i, sjf_est (sampleSjfLanes i) < INT_MAX) ∧
    (∃ i, sjf_eligible sampleSjfLanes i) ∧
    (∃ v : Fin 4, schedule_next_lane_sjf sampleSjfLanes 0 = (v.val : Int) ∧
      sjf_eligible sampleSjfLanes v ∧
      (∀ j, sjf_eligible sampleSjfLanes j →
        sjf_est (sampleSjfLanes v) ≤ sjf_est (sampleSjfLanes j)) ∧
      (∀ j, sjf_eligible sampleSjfLanes j →
        sjf_est (sampleSjfLanes j) = sjf_est (sampleSjfLanes v) →
        (sampleSjfLanes v).last_arrival_time
          ≤ (sampleSjfLanes j).last_arrival_time)) :=
  ⟨by decide, by decide,
    (schedule_next_lane_sjf_spec sampleSjfLanes 0 (by decide)).2 (by decide)⟩

/-- C9: in the MLFQ per-tick priority update, any lane whose time in its
current level (recomputed at entry as `now − last_promotion`) exceeds
`AGING_THRESHOLD` and that is not already at the HIGH level ends the update
force-promoted to HIGH — whether or not the waiting-time promotion trigger
fired — with `last_promotion` stamped to `now`, the lane's 1-based priority
set to 1, and `consecutive_runs` reset by the promotion (then advanced to 1
within the same call when the lane is observed RUNNING, which cannot
re-trigger demotion). -/
theorem update_lane_priority_aging (info : LanePriorityInfo)
    (lane : LaneProcess) (now : Int)
    (hage : now - info.last_promotion > AGING_THRESHOLD)
    (hnot : info.current_priority > PRIORITY_HIGH) :
    (update_lane_priority info lane now).1.current_priority = PRIORITY_HIGH ∧
    (update_lane_priority info lane now).1.last_promotion = now ∧
    (update_lane_priority info lane now).2.priority = 1 ∧
    (update_lane_priority info lane now).1.consecutive_runs
      = (if lane.state = LaneState.RUNNING then 1 else 0) := by
  simp only [AGING_THRESHOLD, PRIORITY_HIGH] at hage hnot
  by_cases hw : lane.waiting_time > (10 : Int)
  · by_cases hc1 : info.current_priority - 1 > (0 : Int)
    · by_cases hrun : lane.state = LaneState.RUNNING <;>
        simp [update_lane_priority, mlfq_promote, mlfq_age, mlfq_runs,
          PROMOTION_THRESHOLD, AGING_THRESHOLD, DEMOTION_THRESHOLD,
          PRIORITY_HIGH, PRIORITY_LOW, hw, hage, hnot, hc1, hrun]
    · have hc0 : info.current_priority = 1 := by omega
      by_cases hrun : lane.state = LaneState.RUNNING <;>
        simp [update_lane_priority, mlfq_promote, mlfq_age, mlfq_runs,
          PROMOTION_THRESHOLD, AGING_THRESHOLD, DEMOTION_THRESHOLD,
          PRIORITY_HIGH, PRIORITY_LOW, hw, hage, hrun, hc0]
  · by_cases hrun : lane.state = LaneState.RUNNING <;>
      simp [update_lane_priority, mlfq_promote, mlfq_age, mlfq_runs,
        PROMOTION_THRESHOLD, AGING_THRESHOLD, DEMOTION_THRESHOLD,
        PRIORITY_HIGH, PRIORITY_LOW, hw, hage, hnot, hrun]

/-- Witness for C9: a MEDIUM-level lane idle for 20 seconds with no
waiting-time trigger is force-promoted to HIGH. -/
theorem update_lane_priority_aging_witness :
    (20 : Int) - sampleInfo.last_promotion > AGING_THRESHOLD ∧
    sampleInfo.current_priority > PRIORITY_HIGH ∧
    ((update_lane_priority sampleInfo sampleMlfqLane 20).1.current_priority
        = PRIORITY_HIGH ∧
      (update_lane_priority sampleInfo sampleMlfqLane 20).1.last_promotion = 20 ∧
      (update_lane_priority sampleInfo sampleMlfqLane 20).2.priority = 1 ∧
      (update_lane_priority sampleInfo sampleMlfqLane 20).1.consecutive_runs
        = (if sampleMlfqLane.state = LaneState.RUNNING then 1 else 0)) :=
  ⟨by decide, by decide,
    update_lane_priority_aging sampleInfo sampleMlfqLane 20 (by decide) (by decide)⟩
